import Mathlib

/-!
Shallow embedding of the NUM assistant's action server (`actions.py`):
text normalisation, building-number extraction, the location catalog and
resolver, the tuition calculator and the GPA accumulator, together with
theorems checking the specification's claims about them.

Strings are modelled as `List Char`; Python floats as `ℚ`; Python ints as
`ℤ`/`ℕ`; fallible steps as `Option`.  Each definition names the source
function it embeds.
-/

namespace Actions

/-- Whitespace characters as Python's `str.strip` / `\s` treat them
(space, tab, newline, carriage return, vertical tab, form feed). -/
def isPySpace (c : Char) : Bool :=
  c = ' ' ∨ c = '\t' ∨ c = '\n' ∨ c = '\r' ∨ c.toNat = 11 ∨ c.toNat = 12

/-- ASCII decimal digit, Python's `\d` on the inputs in question. -/
def isDigitCh (c : Char) : Bool :=
  48 ≤ c.toNat ∧ c.toNat ≤ 57

/-- Python `str.lower` on the alphabets the bot handles: ASCII A–Z and
Cyrillic А–Я (U+0410–U+042F shift by 0x20), plus Ё, Ө, Ү. -/
def lowerChar (c : Char) : Char :=
  let n := c.toNat
  if 65 ≤ n ∧ n ≤ 90 then Char.ofNat (n + 32)
  else if 0x410 ≤ n ∧ n ≤ 0x42F then Char.ofNat (n + 32)
  else if n = 0x401 then Char.ofNat 0x451
  else if n = 0x4E8 then Char.ofNat 0x4E9
  else if n = 0x4AE then Char.ofNat 0x4AF
  else c

/-- Python `str.strip()`. -/
def pyStrip (l : List Char) : List Char :=
  ((l.dropWhile isPySpace).reverse.dropWhile isPySpace).reverse

/-- Decimal value of a digit run, as `int(...)` reads the regex group. -/
def digitsVal (ds : List Char) : ℕ :=
  ds.foldl (fun a c => 10 * a + (c.toNat - 48)) 0

/-- Quote characters removed by `norm` (`re.sub(r"[“”\"'`]", "", s)`),
identified by code point: U+201C, U+201D, 0x22, 0x27, 0x60. -/
def isQuoteCh (c : Char) : Bool :=
  let n := c.toNat
  n = 0x201C ∨ n = 0x201D ∨ n = 34 ∨ n = 39 ∨ n = 96

/-- Punctuation replaced by a space in `norm`
(`re.sub(r"[,\.\(\)\[\]\{\}]", " ", s)`), by code point. -/
def isPunctCh (c : Char) : Bool :=
  let n := c.toNat
  n = 44 ∨ n = 46 ∨ n = 40 ∨ n = 41 ∨ n = 91 ∨ n = 93 ∨ n = 123 ∨ n = 125

/-- One pass of `re.sub(r"\s+", " ", s)`: every maximal whitespace run
becomes a single space. -/
def collapseWs : List Char → List Char
  | [] => []
  | [c] => [if isPySpace c then ' ' else c]
  | c :: d :: rest =>
    if isPySpace c ∧ isPySpace d then collapseWs (d :: rest)
    else (if isPySpace c then ' ' else c) :: collapseWs (d :: rest)

/-- The source's `norm`: strip, lower, fold ё→е, drop quotes, punctuation
to spaces, collapse whitespace, strip. -/
def normChars (l : List Char) : List Char :=
  let s1 := (pyStrip l).map lowerChar
  let s2 := s1.map (fun c => if c = 'ё' then 'е' else c)
  let s3 := s2.filter (fun c => !isQuoteCh c)
  let s4 := s3.map (fun c => if isPunctCh c then ' ' else c)
  pyStrip (collapseWs s4)

/-- Prefix test on character lists. -/
def startsWithCh : List Char → List Char → Bool
  | [], _ => true
  | _ :: _, [] => false
  | a :: as, b :: bs => a = b ∧ startsWithCh as bs

/-- Python's substring operator `needle in haystack`. -/
def containsSub (needle haystack : List Char) : Bool :=
  match haystack with
  | [] => startsWithCh needle []
  | _ :: rest => startsWithCh needle haystack ∨ containsSub needle rest

/-- The source's `detect_kind`: keyword containment on the normalised text,
dormitory keywords first. -/
def detect_kind (text : List Char) : Option String :=
  let t := normChars text
  if (containsSub "дотуур".data t ∨ containsSub "dorm".data t) then some "dorm"
  else if (containsSub "хичээл".data t ∨ containsSub "хичээлийн".data t ∨
      containsSub "сургуулийн".data t ∨ containsSub "academic".data t) then some "class"
  else none

/-- The source's `is_list_request`: the normalised text equals one of the
fixed list-request phrases. -/
def is_list_request (text : List Char) : Bool :=
  ["байршлууд".data, "жагсаалт".data, "locations".data, "list".data,
    "байршилууд".data].contains (normChars text)

/-- The dash class `[-‐-–—]` of the building regexes: ASCII hyphen,
U+2010–U+2013, U+2014. -/
def isDashCh (c : Char) : Bool :=
  c = '-' ∨ (0x2010 ≤ c.toNat ∧ c.toNat ≤ 0x2013) ∨ c.toNat = 0x2014

/-- The literal word `байр` of `BAIR_RE`, case-insensitively; returns the
text after the word. -/
def wordBair : List Char → Option (List Char)
  | b :: a :: j :: r :: rest =>
    if lowerChar b = 'б' ∧ lowerChar a = 'а' ∧ lowerChar j = 'й' ∧ lowerChar r = 'р'
    then some rest else none
  | _ => none

/-- The word part `бай[аa]р` of `BAIR_LOOSE_RE`: note the mandatory extra
vowel (Cyrillic а or Latin a) between й and р, case-insensitively. -/
def wordBaiar : List Char → Option (List Char)
  | b :: a :: j :: x :: r :: rest =>
    if lowerChar b = 'б' ∧ lowerChar a = 'а' ∧ lowerChar j = 'й' ∧
        (lowerChar x = 'а' ∨ lowerChar x = 'a') ∧ lowerChar r = 'р'
    then some rest else none
  | _ => none

/-- The common tail `\s*[-‐-–—]?\s*р?\s*<word>` of the two building
regexes, applied to the text after the digit group; when `anchored` the
rest of the text must be whitespace (`\s*$`).  The greedy consumption is
deterministic because whitespace, dashes, `р` and the word's first letter
`б` are pairwise distinct character classes. -/
def matchPhraseTail (wordFn : List Char → Option (List Char)) (anchored : Bool)
    (t : List Char) : Bool :=
  let t1 := t.dropWhile isPySpace
  let t2 := match t1 with
            | c :: rest => if isDashCh c then rest else t1
            | [] => t1
  let t3 := t2.dropWhile isPySpace
  let t4 := match t3 with
            | c :: rest => if lowerChar c = 'р' then rest else t3
            | [] => t3
  let t5 := t4.dropWhile isPySpace
  match wordFn t5 with
  | none => false
  | some t6 => if anchored then t6.all isPySpace else true

/-- `NUM_ONLY_RE.match`: the whole string is whitespace, a 1–2 digit
number, whitespace.  A digit run of three or more can never satisfy
`\d{1,2}\s*$`, so the match succeeds exactly when the maximal digit run
after the leading whitespace has length 1 or 2 and only whitespace
follows. -/
def numOnlyMatch (t : List Char) : Option ℕ :=
  let t1 := t.dropWhile isPySpace
  let ds := t1.takeWhile isDigitCh
  let rest := t1.dropWhile isDigitCh
  if (ds.length = 1 ∨ ds.length = 2) ∧ rest.all isPySpace then
    some (digitsVal ds)
  else none

/-- `BAIR_RE.match`: anchored `\s*(\d{1,2})\s*[-‐-–—]?\s*р?\s*байр\s*$`,
case-insensitive.  As with `numOnlyMatch`, a longer digit run fails both
backtracking alternatives of `\d{1,2}`, because no later regex element can
consume a digit. -/
def bairMatch (t : List Char) : Option ℕ :=
  let t1 := t.dropWhile isPySpace
  let ds := t1.takeWhile isDigitCh
  let rest := t1.dropWhile isDigitCh
  if (ds.length = 1 ∨ ds.length = 2) ∧ matchPhraseTail wordBair true rest = true then
    some (digitsVal ds)
  else none

/-- `BAIR_LOOSE_RE.search`: leftmost match of
`(\d{1,2})\s*[-‐-–—]?\s*р?\s*бай[аa]р` anywhere in the string,
case-insensitive.  At each start position the engine tries two digits,
then one, then advances one character, exactly as Python's backtracking
does. -/
def looseSearch : List Char → Option ℕ
  | [] => none
  | c :: rest =>
    if isDigitCh c then
      let run := (c :: rest).takeWhile isDigitCh
      if 2 ≤ run.length ∧ matchPhraseTail wordBaiar false ((c :: rest).drop 2) = true then
        some (digitsVal (run.take 2))
      else if matchPhraseTail wordBaiar false rest = true then
        some (digitsVal [c])
      else looseSearch rest
    else looseSearch rest

/-- The source's `extract_number`: strip, then the three patterns in
priority order (bare number, anchored building phrase, loose search). -/
def extract_number (text : List Char) : Option ℕ :=
  let t := pyStrip text
  match numOnlyMatch t with
  | some n => some n
  | none =>
    match bairMatch t with
    | some n => some n
    | none => looseSearch t

/-- The source's `GradeMap` dataclass: a letter grade and its quality
point. -/
structure GradeMap where
  letter : String
  gpa : ℚ
deriving DecidableEq

/-- The source's `score_to_grade`: the fixed breakpoint table, evaluated
top-down, first match wins; the final case is F. -/
def score_to_grade (s : ℚ) : GradeMap :=
  if 90 ≤ s then ⟨"A+", 4⟩
  else if 85 ≤ s ∧ s ≤ 89 then ⟨"A-", 37/10⟩
  else if 80 ≤ s ∧ s ≤ 84 then ⟨"B+", 33/10⟩
  else if 75 ≤ s ∧ s ≤ 79 then ⟨"B", 3⟩
  else if 70 ≤ s ∧ s ≤ 74 then ⟨"C-", 19/10⟩
  else if 65 ≤ s ∧ s ≤ 69 then ⟨"C", 2⟩
  else if 60 ≤ s ∧ s ≤ 64 then ⟨"D", 1⟩
  else ⟨"F", 0⟩

/-- One collected course: the dict `{"credit": ..., "score": ...}` appended
by `validate_current_score`. -/
structure CourseEntry where
  credit : ℚ
  score : ℚ
deriving DecidableEq

/-- The GPA form's conversation slots (`number_of_courses`,
`current_course_index`, `current_credit`, `current_score`, `courses`). -/
structure GpaState where
  numberOfCourses : Option ℤ
  currentCourseIndex : ℤ
  currentCredit : Option ℚ
  currentScore : Option ℚ
  courses : List CourseEntry
deriving DecidableEq

/-- The slot values `ActionCalculateGpa.run` always returns: every session
field cleared, the index back to 1. -/
def resetSlots : GpaState := ⟨none, 1, none, none, []⟩

/-- Truncation toward zero, Python's `int(float(x))` on a numeric value. -/
def truncQ (q : ℚ) : ℤ := if 0 ≤ q then ⌊q⌋ else ⌈q⌉

/-- Result of `ValidateGpaForm.validate_number_of_courses`: a slot value
that does not parse as a number, or parses outside 1–50, clears the slot
and prompts; otherwise the count is accepted. -/
inductive CountRes where
  | rejectNotNumber
  | rejectRange
  | accept (n : ℤ)
deriving DecidableEq

/-- The source's `validate_number_of_courses` on a slot value already
parsed to a number (`none` models a value `int(float(...))` raises on). -/
def validate_number_of_courses (slotValue : Option ℚ) : CountRes :=
  match slotValue with
  | none => CountRes.rejectNotNumber
  | some q =>
    let n := truncQ q
    if 1 ≤ n ∧ n ≤ 50 then CountRes.accept n else CountRes.rejectRange

/-- The slot dict each `validate_number_of_courses` outcome returns,
applied to the tracker state: rejection clears `number_of_courses`;
acceptance sets the count, resets the index to 1 and empties `courses`. -/
def applyCountRes (res : CountRes) (st : GpaState) : GpaState :=
  match res with
  | CountRes.rejectNotNumber => { st with numberOfCourses := none }
  | CountRes.rejectRange => { st with numberOfCourses := none }
  | CountRes.accept n =>
    { st with numberOfCourses := some n, currentCourseIndex := 1, courses := [] }

/-- The source's `validate_current_credit`: `some c` when `0 < c ≤ 30`,
`none` (slot cleared, prompt) otherwise. -/
def validate_current_credit (slotValue : Option ℚ) : Option ℚ :=
  match slotValue with
  | none => none
  | some c => if 0 < c ∧ c ≤ 30 then some c else none

/-- Result of `ValidateGpaForm.validate_current_score`: rejection clears
the slot; acceptance appends the course and either advances to the next
index (clearing credit and score) or keeps the final score. -/
inductive ScoreRes where
  | reject
  | advance (courses : List CourseEntry) (nextIdx : ℤ)
  | finish (courses : List CourseEntry) (score : ℚ)
deriving DecidableEq

/-- The source's `validate_current_score`, given the other slots it reads:
`n = int(number_of_courses or 0)`, `idx`, `credit = float(current_credit
or 0)` and the current course list. -/
def validate_current_score (slotValue : Option ℚ) (n idx : ℤ) (credit : Option ℚ)
    (courses : List CourseEntry) : ScoreRes :=
  match slotValue with
  | none => ScoreRes.reject
  | some s =>
    if 0 ≤ s ∧ s ≤ 100 then
      let cr := credit.getD 0
      let courses2 := courses ++ [⟨cr, s⟩]
      if idx + 1 ≤ n then ScoreRes.advance courses2 (idx + 1)
      else ScoreRes.finish courses2 s
    else ScoreRes.reject

/-- Messages `ActionCalculateGpa.run` can emit: the restart prompt, or the
report whose lines carry (index, credit, score, grade) followed by the
total credit and the GPA. -/
inductive GpaMsg where
  | restart
  | report (lines : List (ℕ × ℚ × ℚ × GradeMap)) (totalCredits : ℚ) (gpa : ℚ)
deriving DecidableEq

/-- The per-course breakdown lines of the GPA report
(`enumerate(courses, start=1)`), carried from index `i`. -/
def reportLinesAux (i : ℕ) : List CourseEntry → List (ℕ × ℚ × ℚ × GradeMap)
  | [] => []
  | c :: rest => (i, c.credit, c.score, score_to_grade c.score) :: reportLinesAux (i + 1) rest

/-- The per-course breakdown lines of the GPA report, numbered from 1. -/
def reportLines (courses : List CourseEntry) : List (ℕ × ℚ × ℚ × GradeMap) :=
  reportLinesAux 1 courses

/-- The source's `ActionCalculateGpa.run`: with no collected courses, a
restart prompt; otherwise the report with credit-weighted GPA (0 when the
total credit is not positive).  Both paths reset every session slot. -/
def action_calculate_gpa (coursesSlot : Option (List CourseEntry)) :
    List GpaMsg × GpaState :=
  let courses := coursesSlot.getD []
  if courses = [] then ([GpaMsg.restart], resetSlots)
  else
    let totalCredits := (courses.map (fun c => c.credit)).sum
    let totalPoints := (courses.map (fun c => c.credit * (score_to_grade c.score).gpa)).sum
    let gpa := if 0 < totalCredits then totalPoints / totalCredits else 0
    ([GpaMsg.report (reportLines courses) totalCredits gpa], resetSlots)

/-- Truthiness of an optional string slot, as Python's `not group` /
`and pending_number` see it: absent or empty is falsy. -/
def optStrTruthy : Option String → Bool
  | none => false
  | some s => !s.isEmpty

/-- One faculty row of `pricing.yml`: the `general` and `major` rates,
`none` when the key is missing or `float(...)` would fail on it. -/
structure FacultyRates where
  general : Option ℚ
  major : Option ℚ
deriving DecidableEq

/-- Association-list lookup, the shallow embedding of a Python dict
read. -/
def lookupAssoc {κ α : Type} [DecidableEq κ] (k : κ) : List (κ × α) → Option α
  | [] => none
  | kv :: rest => if kv.1 = k then some kv.2 else lookupAssoc k rest

/-- The pricing table: admission group → faculty → rates. -/
def PricingTable : Type := List (String × List (String × FacultyRates))

/-- The `try` block of `ActionCalculateTuition.run`:
`pricing[group][faculty]` followed by `float(rates["general"])` and
`float(rates["major"])`; any failure is the caught exception. -/
def usableRates (pricing : PricingTable) (group faculty : String) : Option (ℚ × ℚ) :=
  match lookupAssoc group pricing with
  | none => none
  | some fac =>
    match lookupAssoc faculty fac with
    | none => none
    | some r =>
      match r.general, r.major with
      | some g, some m => some (g, m)
      | _, _ => none

/-- Messages `ActionCalculateTuition.run` can emit, in order: the
missing-selection error, the pricing-not-found error, the best-effort
persistence failure note, and the breakdown with the computed total. -/
inductive TuitionMsg where
  | missingInfo
  | pricingNotFound
  | dbSaveFailed
  | breakdown (group faculty : String) (genCr genRate majCr majRate total : ℚ)
deriving DecidableEq

/-- The source's `ActionCalculateTuition.run`: slots in, messages out.
`persistOk` is the outcome of the database `try` block; its failure only
prepends the inline note and never drops the breakdown. -/
def action_calculate_tuition (pricing : PricingTable) (group faculty : Option String)
    (generalCredits majorCredits : Option ℚ) (persistOk : Bool) : List TuitionMsg :=
  let genCr := generalCredits.getD 0
  let majCr := majorCredits.getD 0
  if optStrTruthy group = false ∨ optStrTruthy faculty = false then
    [TuitionMsg.missingInfo]
  else
    match usableRates pricing (group.getD "") (faculty.getD "") with
    | none => [TuitionMsg.pricingNotFound]
    | some (genRate, majRate) =>
      let total := genCr * genRate + majCr * majRate
      (if persistOk then [] else [TuitionMsg.dbSaveFailed]) ++
        [TuitionMsg.breakdown (group.getD "") (faculty.getD "")
          genCr genRate majCr majRate total]

/-- A pricing table with the worked example's rates. -/
def examplePricing : PricingTable :=
  [("2024_2025", [("ШИНЖЛЭХ УХААНЫ СУРГУУЛЬ", ⟨some 1000, some 2000⟩)])]

/-- One `places` entry of `locations.yml` once it is a dict: every key is
optional; a non-int `number` is modelled as `none` (the source checks
`isinstance(num, int)` wherever it uses it). -/
structure RawPlace where
  kind : Option String
  number : Option ℤ
  title : Option String
  url : Option String
  aliases : List String
deriving DecidableEq

/-- A raw configuration entry: a dict, or something else the loader skips
(`if not isinstance(p, dict): continue`). -/
inductive RawEntry where
  | notDict
  | place (p : RawPlace)

/-- The source's hardcoded `FORBIDDEN` denylist. -/
def FORBIDDEN : List (String × ℤ) := [("dorm", 4), ("class", 6)]

/-- The loader's skip test: `str(p.get("kind") or "")` paired with an int
`number` lying in `FORBIDDEN` drops the record. -/
def keepPlace (p : RawPlace) : Bool :=
  match p.number with
  | some n => if (p.kind.getD "", n) ∈ FORBIDDEN then false else true
  | none => true

/-- The first loop of `load_places`: keep well-formed, non-forbidden
records, in order. -/
def filterPlaces (raw : List RawEntry) : List RawPlace :=
  raw.filterMap fun e =>
    match e with
    | RawEntry.notDict => none
    | RawEntry.place p => if keepPlace p then some p else none

/-- Python dict assignment `d[k] = v`: replace in place on an existing
key, append otherwise. -/
def insertAssoc {κ α : Type} [DecidableEq κ] (k : κ) (v : α) :
    List (κ × α) → List (κ × α)
  | [] => [(k, v)]
  | kv :: rest => if kv.1 = k then (k, v) :: rest else kv :: insertAssoc k v rest

/-- Registering one kept place into `kind_num_index`: only when `kind` is
truthy and `number` is an int. -/
def knStep (idx : List ((String × ℤ) × RawPlace)) (p : RawPlace) :
    List ((String × ℤ) × RawPlace) :=
  match p.kind, p.number with
  | some k, some n => if k ≠ "" then insertAssoc (k, n) p idx else idx
  | _, _ => idx

/-- The `(kind, number)` index of `load_places`. -/
def buildKindNumIndex (ps : List RawPlace) : List ((String × ℤ) × RawPlace) :=
  ps.foldl knStep []

/-- Registering one kept place's aliases into `alias_index`, each alias
normalised. -/
def aliasStep (idx : List (List Char × RawPlace)) (p : RawPlace) :
    List (List Char × RawPlace) :=
  p.aliases.foldl (fun idx2 a => insertAssoc (normChars a.data) p idx2) idx

/-- The alias index of `load_places`. -/
def buildAliasIndex (ps : List RawPlace) : List (List Char × RawPlace) :=
  ps.foldl aliasStep []

/-- The catalog `load_places` returns: alias index, kind-number index and
the kept record list. -/
structure Catalog where
  aliasIndex : List (List Char × RawPlace)
  kindNumIndex : List ((String × ℤ) × RawPlace)
  places : List RawPlace

/-- The source's `load_places` on the parsed `places` list of
`locations.yml`. -/
def load_places (raw : List RawEntry) : Catalog :=
  let ps := filterPlaces raw
  ⟨buildAliasIndex ps, buildKindNumIndex ps, ps⟩

/-- The location resolver's conversation slots (`pending_number`,
`place_type`). -/
structure LocState where
  pendingNumber : Option String
  placeType : Option String
deriving DecidableEq

/-- Messages `ActionSendLocation.run` can emit. -/
inductive LocMsg where
  | chooseKindPrompt
  | notAvailable
  | notFoundByNumber
  | placeWithUrl (title url : String)
  | placeNoUrl (title : String)
  | listTitles (titles : List String)
  | askPlaceType
  | aliasNotFound
deriving DecidableEq

/-- The source's `say_place`: title plus URL when one is configured, title
plus the explicit link-missing notice otherwise. -/
def say_place (p : RawPlace) : LocMsg :=
  let title := p.title.getD "Байршил"
  let url := pyStrip (p.url.getD "").data
  if url = [] then LocMsg.placeNoUrl title else LocMsg.placeWithUrl title (String.mk url)

/-- Python's `int(str(...))` on the pending-number slot: optional sign and
decimal digits after stripping, anything else raises (modelled `none`). -/
def parsePyInt (s : List Char) : Option ℤ :=
  let t := pyStrip s
  match t with
  | [] => none
  | c :: rest =>
    if c = '-' then
      if rest ≠ [] ∧ rest.all isDigitCh then some (-(digitsVal rest : ℤ)) else none
    else if c = '+' then
      if rest ≠ [] ∧ rest.all isDigitCh then some ((digitsVal rest : ℤ)) else none
    else if t.all isDigitCh then some ((digitsVal t : ℤ)) else none

/-- The membership test `kind in {"class", "dorm"}`. -/
def kindInSet : Option String → Bool
  | some k => decide (k = "class" ∨ k = "dorm")
  | none => false

/-- The titles emitted by the list branch: places whose `title` is
truthy, in catalog order. -/
def listTitlesOf (cat : Catalog) : List String :=
  cat.places.filterMap fun p =>
    match p.title with
    | some t => if t ≠ "" then some t else none
    | none => none

/-- The alias fallback of `ActionSendLocation.run`: exact normalised alias
lookup, then the first alias whose non-empty normal form is a substring of
the normalised text, then the final not-found message. -/
def firstAliasSub (idx : List (List Char × RawPlace)) (ntext : List Char) :
    Option RawPlace :=
  match idx with
  | [] => none
  | (a, p) :: rest =>
    if a ≠ [] ∧ containsSub a ntext = true then some p else firstAliasSub rest ntext

/-- Steps 5–7 of the resolver (alias exact match, alias substring match,
fallback reply); no state change on any of these paths. -/
def aliasResolve (cat : Catalog) (text : List Char) : List LocMsg :=
  let ntext := normChars text
  match lookupAssoc ntext cat.aliasIndex with
  | some p => [say_place p]
  | none =>
    match firstAliasSub cat.aliasIndex ntext with
    | some p => [say_place p]
    | none => [LocMsg.aliasNotFound]

/-- The source's `ActionSendLocation.run`: latest text and intent plus the
two slots in, messages and updated slots out, following the code's branch
order (disambiguation continuation, list request, bare number without
kind, number with kind, alias fallback). -/
def action_send_location (cat : Catalog) (rawText intentName : String)
    (st : LocState) : List LocMsg × LocState :=
  let text := pyStrip rawText.data
  if intentName = "choose_place_type" ∧ optStrTruthy st.pendingNumber = true then
    let chosenKind :=
      match detect_kind text with
      | some k => some k
      | none => if kindInSet st.placeType then st.placeType else none
    match chosenKind with
    | none => ([LocMsg.chooseKindPrompt], st)
    | some kind =>
      match parsePyInt (st.pendingNumber.getD "").data with
      | some n =>
        if (kind, n) ∈ FORBIDDEN then
          ([LocMsg.notAvailable], ⟨none, some kind⟩)
        else
          match lookupAssoc (kind, n) cat.kindNumIndex with
          | some p => ([say_place p], ⟨none, some kind⟩)
          | none => ([LocMsg.notFoundByNumber], ⟨none, st.placeType⟩)
      | none => ([LocMsg.notFoundByNumber], ⟨none, st.placeType⟩)
  else if is_list_request text = true then
    ([LocMsg.listTitles (listTitlesOf cat)], st)
  else
    let kind := detect_kind text
    let num := extract_number text
    if num.isSome = true ∧ kind = none ∧
        ((numOnlyMatch text).isSome = true ∨ (bairMatch text).isSome = true ∨
          (looseSearch text).isSome = true) then
      match num with
      | some n => ([LocMsg.askPlaceType], ⟨some (toString n), st.placeType⟩)
      | none => (aliasResolve cat text, st)
    else if num.isSome = true ∧ kindInSet kind = true then
      match num, kind with
      | some n, some k =>
        if (k, (n : ℤ)) ∈ FORBIDDEN then
          ([LocMsg.notAvailable], ⟨none, some k⟩)
        else
          match lookupAssoc (k, (n : ℤ)) cat.kindNumIndex with
          | some p => ([say_place p], ⟨none, some k⟩)
          | none => ([LocMsg.notFoundByNumber], st)
      | _, _ => (aliasResolve cat text, st)
    else
      (aliasResolve cat text, st)

/-- Modelled from the spec: the GPA session's turn-by-turn transitions.
The validators themselves are the source's (`validate_number_of_courses`,
`validate_current_credit`, `validate_current_score` above); what is not
under `src/` is the dialogue framework's form scheduling (the Rasa domain),
which per the spec's state machine (CollectingCount → CollectingCredit(i)
→ CollectingScore(i) → … → Ready → Reset) requests `current_score` only
once `current_credit` holds a validated value — the `hc` premises.  Each
constructor applies the slot dict the corresponding validation outcome (or
`ActionCalculateGpa.run`) returns. -/
inductive GpaStep : GpaState → GpaState → Prop
  | setCount (st : GpaState) (v : Option ℚ) (n : ℤ)
      (h : validate_number_of_courses v = CountRes.accept n) :
      GpaStep st { st with numberOfCourses := some n, currentCourseIndex := 1,
                           courses := [] }
  | countRejectedNotNumber (st : GpaState) (v : Option ℚ)
      (h : validate_number_of_courses v = CountRes.rejectNotNumber) :
      GpaStep st { st with numberOfCourses := none }
  | countRejectedRange (st : GpaState) (v : Option ℚ)
      (h : validate_number_of_courses v = CountRes.rejectRange) :
      GpaStep st { st with numberOfCourses := none }
  | setCredit (st : GpaState) (v : Option ℚ) (c : ℚ)
      (h : validate_current_credit v = some c) :
      GpaStep st { st with currentCredit := some c }
  | creditRejected (st : GpaState) (v : Option ℚ)
      (h : validate_current_credit v = none) :
      GpaStep st { st with currentCredit := none }
  | scoreAdvance (st : GpaState) (v : Option ℚ) (c : ℚ) (cs : List CourseEntry) (ni : ℤ)
      (hc : st.currentCredit = some c)
      (h : validate_current_score v (st.numberOfCourses.getD 0) st.currentCourseIndex
            st.currentCredit st.courses = ScoreRes.advance cs ni) :
      GpaStep st { st with courses := cs, currentCourseIndex := ni,
                           currentCredit := none, currentScore := none }
  | scoreFinish (st : GpaState) (v : Option ℚ) (c : ℚ) (cs : List CourseEntry) (s : ℚ)
      (hc : st.currentCredit = some c)
      (h : validate_current_score v (st.numberOfCourses.getD 0) st.currentCourseIndex
            st.currentCredit st.courses = ScoreRes.finish cs s) :
      GpaStep st { st with courses := cs, currentScore := some s }
  | scoreRejected (st : GpaState) (v : Option ℚ)
      (h : validate_current_score v (st.numberOfCourses.getD 0) st.currentCourseIndex
            st.currentCredit st.courses = ScoreRes.reject) :
      GpaStep st { st with currentScore := none }
  | finalize (st : GpaState) : GpaStep st resetSlots

/-- A collected course entry as the spec's CourseEntry demands it: positive
credit, score within 0–100. -/
def GoodEntry (e : CourseEntry) : Prop :=
  0 < e.credit ∧ 0 ≤ e.score ∧ e.score ≤ 100

/-- The session invariant: any held credit was validated, and every
collected course entry is well-formed. -/
def GpaInv (st : GpaState) : Prop :=
  (∀ c, st.currentCredit = some c → 0 < c ∧ c ≤ 30) ∧
  ∀ e ∈ st.courses, GoodEntry e

/-- Session states reachable from the fresh (reset) session. -/
def GpaReachable (st : GpaState) : Prop :=
  Relation.ReflTransGen GpaStep resetSlots st

theorem gpaStep_inv {s t : GpaState} (hst : GpaStep s t) (hs : GpaInv s) : GpaInv t := by
  obtain ⟨hcred, hcourses⟩ := hs
  cases hst with
  | setCount v n h =>
    exact ⟨hcred, by intro e he; exact absurd he (List.not_mem_nil e)⟩
  | countRejectedNotNumber v h => exact ⟨hcred, hcourses⟩
  | countRejectedRange v h => exact ⟨hcred, hcourses⟩
  | setCredit v c h =>
    refine ⟨?_, hcourses⟩
    intro q hq
    obtain rfl : c = q := by simpa using hq
    cases v with
    | none => simp [validate_current_credit] at h
    | some w =>
      simp only [validate_current_credit] at h
      by_cases hw : 0 < w ∧ w ≤ 30
      · rw [if_pos hw] at h
        obtain rfl : w = c := by simpa using h
        exact hw
      · rw [if_neg hw] at h
        exact absurd h (by simp)
  | creditRejected v h =>
    exact ⟨by intro q hq; exact absurd hq (by simp), hcourses⟩
  | scoreAdvance v c cs ni hc h =>
    refine ⟨by intro q hq; exact absurd hq (by simp), ?_⟩
    intro e he
    cases v with
    | none => simp [validate_current_score] at h
    | some w =>
      simp only [validate_current_score] at h
      by_cases hw : 0 ≤ w ∧ w ≤ 100
      · rw [if_pos hw] at h
        by_cases hn : s.currentCourseIndex + 1 ≤ s.numberOfCourses.getD 0
        · rw [if_pos hn] at h
          injection h with h1 h2
          subst h1
          rcases List.mem_append.mp he with h2 | h2
          · exact hcourses e h2
          · obtain rfl : e = ⟨s.currentCredit.getD 0, w⟩ := List.mem_singleton.mp h2
            refine ⟨?_, hw.1, hw.2⟩
            rw [hc]
            exact (hcred c hc).1
        · rw [if_neg hn] at h
          exact absurd h (by simp)
      · rw [if_neg hw] at h
        exact absurd h (by simp)
  | scoreFinish v c cs sc hc h =>
    refine ⟨hcred, ?_⟩
    intro e he
    cases v with
    | none => simp [validate_current_score] at h
    | some w =>
      simp only [validate_current_score] at h
      by_cases hw : 0 ≤ w ∧ w ≤ 100
      · rw [if_pos hw] at h
        by_cases hn : s.currentCourseIndex + 1 ≤ s.numberOfCourses.getD 0
        · rw [if_pos hn] at h
          exact absurd h (by simp)
        · rw [if_neg hn] at h
          injection h with h1 h2
          subst h1
          rcases List.mem_append.mp he with h2 | h2
          · exact hcourses e h2
          · obtain rfl : e = ⟨s.currentCredit.getD 0, w⟩ := List.mem_singleton.mp h2
            refine ⟨?_, hw.1, hw.2⟩
            rw [hc]
            exact (hcred c hc).1
      · rw [if_neg hw] at h
        exact absurd h (by simp)
  | scoreRejected v h => exact ⟨hcred, hcourses⟩
  | finalize =>
    exact ⟨by intro q hq; exact absurd hq (by simp [resetSlots]),
      by intro e he; exact absurd he (by simp [resetSlots])⟩


theorem gpaReachable_inv {st : GpaState} (h : GpaReachable st) : GpaInv st := by
  induction h with
  | refl =>
    exact ⟨by intro q hq; exact absurd hq (by simp [resetSlots]),
      by intro e he; exact absurd he (by simp [resetSlots])⟩
  | tail _ hstep ih => exact gpaStep_inv hstep ih

theorem mem_insertAssoc {κ α : Type} [DecidableEq κ] (k : κ) (v : α)
    (l : List (κ × α)) (kv : κ × α) (h : kv ∈ insertAssoc k v l) :
    kv = (k, v) ∨ kv ∈ l := by
  induction l with
  | nil => simpa [insertAssoc] using h
  | cons hd tl ih =>
    unfold insertAssoc at h
    by_cases hk : hd.1 = k
    · rw [if_pos hk] at h
      rcases List.mem_cons.mp h with h2 | h2
      · exact Or.inl h2
      · exact Or.inr (List.mem_cons_of_mem hd h2)
    · rw [if_neg hk] at h
      rcases List.mem_cons.mp h with h2 | h2
      · exact Or.inr (h2 ▸ List.mem_cons_self hd tl)
      · rcases ih h2 with h3 | h3
        · exact Or.inl h3
        · exact Or.inr (List.mem_cons_of_mem hd h3)

theorem lookupAssoc_eq_none {κ α : Type} [DecidableEq κ] (k : κ) (l : List (κ × α))
    (h : ∀ kv ∈ l, kv.1 ≠ k) : lookupAssoc k l = none := by
  induction l with
  | nil => rfl
  | cons hd tl ih =>
    unfold lookupAssoc
    rw [if_neg (h hd (List.mem_cons_self hd tl))]
    exact ih fun kv hkv => h kv (List.mem_cons_of_mem hd hkv)

theorem mem_knStep (acc : List ((String × ℤ) × RawPlace)) (p : RawPlace)
    (kv : (String × ℤ) × RawPlace) (h : kv ∈ knStep acc p) :
    kv ∈ acc ∨ (kv.2 = p ∧ p.kind = some kv.1.1 ∧ p.number = some kv.1.2) := by
  unfold knStep at h
  rcases hpk : p.kind with - | k <;> rcases hpn : p.number with - | n <;>
    rw [hpk, hpn] at h <;> dsimp only at h
  · exact Or.inl h
  · exact Or.inl h
  · exact Or.inl h
  · by_cases hk : k ≠ ""
    · rw [if_pos hk] at h
      rcases mem_insertAssoc _ _ _ _ h with h2 | h2
      · subst h2
        exact Or.inr ⟨rfl, rfl, rfl⟩
      · exact Or.inl h2
    · rw [if_neg hk] at h
      exact Or.inl h

theorem foldl_knStep_prop (P : (String × ℤ) × RawPlace → Prop) :
    ∀ (ps : List RawPlace),
      (∀ p ∈ ps, ∀ k n, p.kind = some k → p.number = some n → P ((k, n), p)) →
      ∀ (acc : List ((String × ℤ) × RawPlace)), (∀ kv ∈ acc, P kv) →
      ∀ kv ∈ ps.foldl knStep acc, P kv := by
  intro ps
  induction ps with
  | nil => intro _ acc hacc kv hkv; exact hacc kv hkv
  | cons p ps ih =>
    intro hps acc hacc kv hkv
    rw [List.foldl_cons] at hkv
    refine ih (fun q hq => hps q (List.mem_cons_of_mem p hq)) (knStep acc p) ?_ kv hkv
    intro kv2 hkv2
    rcases mem_knStep acc p kv2 hkv2 with h | ⟨hp, hk, hn⟩
    · exact hacc kv2 h
    · have := hps p (List.mem_cons_self p ps) kv2.1.1 kv2.1.2 hk hn
      rw [← hp] at this
      exact this

theorem mem_alias_inner (p : RawPlace) :
    ∀ (as : List String) (acc : List (List Char × RawPlace))
      (kv : List Char × RawPlace),
      kv ∈ as.foldl (fun idx2 a => insertAssoc (normChars a.data) p idx2) acc →
      kv ∈ acc ∨ kv.2 = p := by
  intro as
  induction as with
  | nil => intro acc kv h; exact Or.inl h
  | cons a as ih =>
    intro acc kv h
    rw [List.foldl_cons] at h
    rcases ih _ kv h with h2 | h2
    · rcases mem_insertAssoc _ _ _ _ h2 with h3 | h3
      · subst h3
        exact Or.inr rfl
      · exact Or.inl h3
    · exact Or.inr h2

theorem foldl_aliasStep_prop (P : RawPlace → Prop) :
    ∀ (ps : List RawPlace), (∀ p ∈ ps, P p) →
      ∀ (acc : List (List Char × RawPlace)), (∀ kv ∈ acc, P kv.2) →
      ∀ kv ∈ ps.foldl aliasStep acc, P kv.2 := by
  intro ps
  induction ps with
  | nil => intro _ acc hacc kv hkv; exact hacc kv hkv
  | cons p ps ih =>
    intro hps acc hacc kv hkv
    rw [List.foldl_cons] at hkv
    refine ih (fun q hq => hps q (List.mem_cons_of_mem p hq)) (aliasStep acc p) ?_ kv hkv
    intro kv2 hkv2
    rcases mem_alias_inner p p.aliases acc kv2 hkv2 with h | h
    · exact hacc kv2 h
    · rw [h]
      exact hps p (List.mem_cons_self p ps)

theorem keep_of_mem_filterPlaces (raw : List RawEntry) (p : RawPlace)
    (h : p ∈ filterPlaces raw) : keepPlace p = true := by
  unfold filterPlaces at h
  rcases List.mem_filterMap.mp h with ⟨e, -, hfe⟩
  cases e with
  | notDict => simp at hfe
  | place q =>
    by_cases hq : keepPlace q = true
    · simp only [hq, if_true] at hfe
      obtain rfl : q = p := Option.some.inj hfe
      exact hq
    · dsimp only at hfe
      rw [if_neg hq] at hfe
      simp at hfe

theorem keepPlace_spec (p : RawPlace) (hk : keepPlace p = true) (n : ℤ)
    (hn : p.number = some n) : (p.kind.getD "", n) ∉ FORBIDDEN := by
  intro hmem
  unfold keepPlace at hk
  rw [hn] at hk
  dsimp only at hk
  rw [if_pos hmem] at hk
  exact Bool.false_ne_true hk

theorem kindNum_lookup_forbidden_none (raw : List RawEntry) (key : String × ℤ)
    (hkey : key ∈ FORBIDDEN) :
    lookupAssoc key (load_places raw).kindNumIndex = none := by
  apply lookupAssoc_eq_none
  intro kv hkv hk
  have hP := foldl_knStep_prop
    (fun kv => keepPlace kv.2 = true ∧ kv.2.kind = some kv.1.1 ∧ kv.2.number = some kv.1.2)
    (filterPlaces raw)
    (fun p hp k n hpk hpn => ⟨keep_of_mem_filterPlaces raw p hp, hpk, hpn⟩)
    [] (fun kv2 hkv2 => absurd hkv2 (List.not_mem_nil kv2)) kv hkv
  obtain ⟨hkeep, hkind, hnum⟩ := hP
  have hnot := keepPlace_spec kv.2 hkeep kv.1.2 hnum
  apply hnot
  have hpair : (kv.2.kind.getD "", kv.1.2) = kv.1 := by
    rw [hkind]
    exact congrArg (fun x => (x, kv.1.2)) rfl
  rw [hpair, hk]
  exact hkey

/-- C3 (confirmed): for every raw configuration input, catalog construction
excludes any record whose (kind, number) pair is in the forbidden set
{(dorm,4),(class,6)} from the record list, the alias index and the
kind-number index, so `byKindNumber(dorm,4)` and `byKindNumber(class,6)`
always return none. -/
theorem catalog_excludes_forbidden (raw : List RawEntry) :
    (∀ p ∈ (load_places raw).places, ∀ n, p.number = some n →
      (p.kind.getD "", n) ∉ FORBIDDEN) ∧
    (∀ kv ∈ (load_places raw).aliasIndex, ∀ n, kv.2.number = some n →
      (kv.2.kind.getD "", n) ∉ FORBIDDEN) ∧
    lookupAssoc ("dorm", (4 : ℤ)) (load_places raw).kindNumIndex = none ∧
    lookupAssoc ("class", (6 : ℤ)) (load_places raw).kindNumIndex = none := by
  refine ⟨?_, ?_, ?_, ?_⟩
  · intro p hp n hn
    exact keepPlace_spec p (keep_of_mem_filterPlaces raw p hp) n hn
  · intro kv hkv n hn
    have hk : keepPlace kv.2 = true :=
      foldl_aliasStep_prop (fun p => keepPlace p = true) (filterPlaces raw)
        (fun p hp => keep_of_mem_filterPlaces raw p hp) []
        (fun kv2 hkv2 => absurd hkv2 (List.not_mem_nil kv2)) kv hkv
    exact keepPlace_spec kv.2 hk n hn
  · exact kindNum_lookup_forbidden_none raw ("dorm", 4) (by decide)
  · exact kindNum_lookup_forbidden_none raw ("class", 6) (by decide)

/-- C4 (confirmed): from the empty session, the text "4" prompts for a
kind and stores pendingNumber "4"; the following turn with the kind-chosen
intent and text "дотуур байр" classifies dorm, hits the forbidden pair
(dorm,4), replies not-available and clears pendingNumber. -/
theorem resolver_round_trip (cat : Catalog) :
    (action_send_location cat "4" "ask_location" ⟨none, none⟩).1 =
      [LocMsg.askPlaceType] ∧
    (action_send_location cat "4" "ask_location" ⟨none, none⟩).2 =
      ⟨some "4", none⟩ ∧
    action_send_location cat "дотуур байр" "choose_place_type"
        (action_send_location cat "4" "ask_location" ⟨none, none⟩).2 =
      ([LocMsg.notAvailable], ⟨none, some "dorm"⟩) :=
  ⟨rfl, rfl, rfl⟩

/-- C2 (code_bug evidence): the bare-number tier and the anchored phrase
tier of `extract_number` behave as specified, but on a building phrase
surrounded by extra words the loose tier returns nothing, because
`BAIR_LOOSE_RE` spells the word `бай[аa]р` (a mandatory extra vowel) and
so never matches the actual word `байр`; the misspelling `байар` is what
it extracts from. -/
theorem extract_number_loose_spelling :
    extract_number "  13 ".data = some 13 ∧
    extract_number "13 байр".data = some 13 ∧
    extract_number "хаана 13 байр вэ".data = none ∧
    extract_number "хаана 13 байар вэ".data = some 13 := by
  decide

/-- C1 (counterexample): the score 74.9 falls in none of the table's
inclusive bands, so the code maps it to F with quality point 0.0, not to
C- with 1.9 as the claim states. -/
theorem score_74_9_not_C_minus :
    score_to_grade (749/10) = ⟨"F", 0⟩ ∧
    score_to_grade (749/10) ≠ ⟨"C-", 19/10⟩ := by
  have h : score_to_grade (749/10) = ⟨"F", 0⟩ := by norm_num [score_to_grade]
  refine ⟨h, ?_⟩
  rw [h]
  intro hEq
  have h2 : "F" = "C-" := congrArg GradeMap.letter hEq
  exact absurd h2 (by decide)

/-- C1 (corrected): `score_to_grade` follows the breakpoint table with
inclusive band ends exactly as listed; the bands cover every integer
score, but a fractional score in a gap such as 74.9 matches no band and
falls through to F (0.0). -/
theorem score_band_table (s : ℚ) :
    (90 ≤ s → score_to_grade s = ⟨"A+", 4⟩) ∧
    (85 ≤ s ∧ s ≤ 89 → score_to_grade s = ⟨"A-", 37/10⟩) ∧
    (80 ≤ s ∧ s ≤ 84 → score_to_grade s = ⟨"B+", 33/10⟩) ∧
    (75 ≤ s ∧ s ≤ 79 → score_to_grade s = ⟨"B", 3⟩) ∧
    (70 ≤ s ∧ s ≤ 74 → score_to_grade s = ⟨"C-", 19/10⟩) ∧
    (65 ≤ s ∧ s ≤ 69 → score_to_grade s = ⟨"C", 2⟩) ∧
    (60 ≤ s ∧ s ≤ 64 → score_to_grade s = ⟨"D", 1⟩) ∧
    (s < 60 → score_to_grade s = ⟨"F", 0⟩) ∧
    score_to_grade (749/10) = ⟨"F", 0⟩ := by
  refine ⟨?_, ?_, ?_, ?_, ?_, ?_, ?_, ?_, ?_⟩
  · intro h
    unfold score_to_grade
    rw [if_pos h]
  · rintro ⟨h1, h2⟩
    unfold score_to_grade
    rw [if_neg (by intro hx; linarith), if_pos ⟨h1, h2⟩]
  · rintro ⟨h1, h2⟩
    unfold score_to_grade
    rw [if_neg (by intro hx; linarith),
      if_neg (by rintro ⟨hx, -⟩; linarith), if_pos ⟨h1, h2⟩]
  · rintro ⟨h1, h2⟩
    unfold score_to_grade
    rw [if_neg (by intro hx; linarith),
      if_neg (by rintro ⟨hx, -⟩; linarith),
      if_neg (by rintro ⟨hx, -⟩; linarith), if_pos ⟨h1, h2⟩]
  · rintro ⟨h1, h2⟩
    unfold score_to_grade
    rw [if_neg (by intro hx; linarith),
      if_neg (by rintro ⟨hx, -⟩; linarith),
      if_neg (by rintro ⟨hx, -⟩; linarith),
      if_neg (by rintro ⟨hx, -⟩; linarith), if_pos ⟨h1, h2⟩]
  · rintro ⟨h1, h2⟩
    unfold score_to_grade
    rw [if_neg (by intro hx; linarith),
      if_neg (by rintro ⟨hx, -⟩; linarith),
      if_neg (by rintro ⟨hx, -⟩; linarith),
      if_neg (by rintro ⟨hx, -⟩; linarith),
      if_neg (by rintro ⟨hx, -⟩; linarith), if_pos ⟨h1, h2⟩]
  · rintro ⟨h1, h2⟩
    unfold score_to_grade
    rw [if_neg (by intro hx; linarith),
      if_neg (by rintro ⟨hx, -⟩; linarith),
      if_neg (by rintro ⟨hx, -⟩; linarith),
      if_neg (by rintro ⟨hx, -⟩; linarith),
      if_neg (by rintro ⟨hx, -⟩; linarith),
      if_neg (by rintro ⟨hx, -⟩; linarith), if_pos ⟨h1, h2⟩]
  · intro h
    unfold score_to_grade
    rw [if_neg (by intro hx; linarith),
      if_neg (by rintro ⟨hx, -⟩; linarith),
      if_neg (by rintro ⟨hx, -⟩; linarith),
      if_neg (by rintro ⟨hx, -⟩; linarith),
      if_neg (by rintro ⟨hx, -⟩; linarith),
      if_neg (by rintro ⟨hx, -⟩; linarith),
      if_neg (by rintro ⟨hx, -⟩; linarith)]
  · norm_num [score_to_grade]

/-- C5 (counterexample): finalizing with courses [(3,95),(2,68)] yields
GPA 16/5 = 3.20, not 2.80 as the claim computes. -/
theorem gpa_example_not_2_80 :
    action_calculate_gpa (some [⟨3, 95⟩, ⟨2, 68⟩]) =
      ([GpaMsg.report [(1, 3, 95, ⟨"A+", 4⟩), (2, 2, 68, ⟨"C", 2⟩)] 5 (16/5)],
        resetSlots) ∧
    (16 : ℚ)/5 ≠ 28/10 := by
  constructor
  · norm_num [action_calculate_gpa, reportLines, reportLinesAux, score_to_grade,
      resetSlots]
    intro hx
    exact absurd hx (by simp)
  · norm_num

/-- C5 (corrected): finalizing with courses [(3,95),(2,68)] produces the
letters A+ (4.0) and C (2.0), total credit 5 and GPA (3·4.0+2·2.0)/5 =
16/5 = 3.20, and resets every session field. -/
theorem gpa_example_report :
    action_calculate_gpa (some [⟨3, 95⟩, ⟨2, 68⟩]) =
      ([GpaMsg.report [(1, 3, 95, ⟨"A+", 4⟩), (2, 2, 68, ⟨"C", 2⟩)] 5 (16/5)],
        resetSlots) ∧
    (16 : ℚ)/5 = 3.2 ∧
    resetSlots = ⟨none, 1, none, none, []⟩ := by
  refine ⟨?_, by norm_num, rfl⟩
  norm_num [action_calculate_gpa, reportLines, reportLinesAux, score_to_grade,
    resetSlots]
  intro hx
  exact absurd hx (by simp)

/-- C10 (confirmed): finalizing with an empty or missing course list emits
only the restart prompt and resets all session slots — the same reset
every finalization performs. -/
theorem gpa_finalize_empty :
    action_calculate_gpa none = ([GpaMsg.restart], resetSlots) ∧
    action_calculate_gpa (some []) = ([GpaMsg.restart], resetSlots) ∧
    resetSlots = ⟨none, 1, none, none, []⟩ ∧
    ∀ coursesSlot, (action_calculate_gpa coursesSlot).2 = resetSlots := by
  refine ⟨rfl, rfl, rfl, ?_⟩
  intro coursesSlot
  unfold action_calculate_gpa
  dsimp only
  split
  · rfl
  · rfl

/-- C9 (counterexample): the input 50.9 is not a number between 1 and 50,
yet the validator accepts it (as 50) because `int(float(...))` truncates
before the range check. -/
theorem count_50_9_accepted :
    validate_number_of_courses (some (509/10)) = CountRes.accept 50 ∧
    ¬ ((509 : ℚ)/10 ≤ 50) := by
  constructor
  · norm_num [validate_number_of_courses, truncQ]
  · norm_num

/-- C9 (corrected): `validate_number_of_courses` rejects (clearing the
slot with a corrective prompt) unparseable input and any input whose
truncation toward zero lies outside 1–50; an accepted input sets the
count to the truncated integer, resets the index to 1 and clears the
course list. -/
theorem count_validation_spec (v : Option ℚ) :
    (v = none → validate_number_of_courses v = CountRes.rejectNotNumber) ∧
    (∀ q, v = some q →
      ((1 ≤ truncQ q ∧ truncQ q ≤ 50) →
        validate_number_of_courses v = CountRes.accept (truncQ q)) ∧
      (¬(1 ≤ truncQ q ∧ truncQ q ≤ 50) →
        validate_number_of_courses v = CountRes.rejectRange)) ∧
    ∀ st n, applyCountRes (CountRes.accept n) st =
      { st with numberOfCourses := some n, currentCourseIndex := 1, courses := [] } := by
  refine ⟨?_, ?_, ?_⟩
  · rintro rfl
    rfl
  · rintro q rfl
    constructor
    · intro hq
      show (if 1 ≤ truncQ q ∧ truncQ q ≤ 50 then CountRes.accept (truncQ q)
        else CountRes.rejectRange) = _
      rw [if_pos hq]
    · intro hq
      show (if 1 ≤ truncQ q ∧ truncQ q ≤ 50 then CountRes.accept (truncQ q)
        else CountRes.rejectRange) = _
      rw [if_neg hq]
  · intro st n
    rfl

/-- C9 (witness): no top-level hypotheses beyond the slot value; concrete
instance at v = some 2. -/
theorem count_validation_spec_witness :
    ((1 ≤ truncQ 2 ∧ truncQ 2 ≤ 50) →
      validate_number_of_courses (some 2) = CountRes.accept (truncQ 2)) ∧
    (¬(1 ≤ truncQ 2 ∧ truncQ 2 ≤ 50) →
      validate_number_of_courses (some 2) = CountRes.rejectRange) :=
  (count_validation_spec (some 2)).2.1 2 rfl

theorem tuition_success_case (pricing : PricingTable) (group faculty : Option String)
    (genCr majCr : Option ℚ) (pOk : Bool) (genRate majRate : ℚ)
    (hg : optStrTruthy group = true) (hf : optStrTruthy faculty = true)
    (hr : usableRates pricing (group.getD "") (faculty.getD "") = some (genRate, majRate)) :
    action_calculate_tuition pricing group faculty genCr majCr pOk =
      (if pOk then [] else [TuitionMsg.dbSaveFailed]) ++
        [TuitionMsg.breakdown (group.getD "") (faculty.getD "") (genCr.getD 0) genRate
          (majCr.getD 0) majRate ((genCr.getD 0) * genRate + (majCr.getD 0) * majRate)] := by
  unfold action_calculate_tuition
  rw [if_neg (by simp [hg, hf]), hr]

/-- C6 (confirmed): the tuition calculator reports the missing-selection
error when the group or faculty slot is absent or empty, the
pricing-not-found error when the table holds no usable rates, and
otherwise the breakdown with total generalCredits·generalRate +
majorCredits·majorRate; on the worked example the total is 20000. -/
theorem tuition_calc_spec (pricing : PricingTable) (group faculty : Option String)
    (genCr majCr : Option ℚ) (pOk : Bool) :
    (optStrTruthy group = false ∨ optStrTruthy faculty = false →
      action_calculate_tuition pricing group faculty genCr majCr pOk =
        [TuitionMsg.missingInfo]) ∧
    (optStrTruthy group = true → optStrTruthy faculty = true →
      usableRates pricing (group.getD "") (faculty.getD "") = none →
      action_calculate_tuition pricing group faculty genCr majCr pOk =
        [TuitionMsg.pricingNotFound]) ∧
    (∀ genRate majRate, optStrTruthy group = true → optStrTruthy faculty = true →
      usableRates pricing (group.getD "") (faculty.getD "") = some (genRate, majRate) →
      action_calculate_tuition pricing group faculty genCr majCr pOk =
        (if pOk then [] else [TuitionMsg.dbSaveFailed]) ++
          [TuitionMsg.breakdown (group.getD "") (faculty.getD "") (genCr.getD 0) genRate
            (majCr.getD 0) majRate
            ((genCr.getD 0) * genRate + (majCr.getD 0) * majRate)]) ∧
    action_calculate_tuition examplePricing (some "2024_2025")
        (some "ШИНЖЛЭХ УХААНЫ СУРГУУЛЬ") (some 10) (some 5) true =
      [TuitionMsg.breakdown "2024_2025" "ШИНЖЛЭХ УХААНЫ СУРГУУЛЬ"
        10 1000 5 2000 20000] := by
  refine ⟨?_, ?_, ?_, ?_⟩
  · intro h
    unfold action_calculate_tuition
    rw [if_pos h]
  · intro hg hf hr
    unfold action_calculate_tuition
    rw [if_neg (by simp [hg, hf]), hr]
  · intro genRate majRate hg hf hr
    exact tuition_success_case pricing group faculty genCr majCr pOk genRate majRate hg hf hr
  · have h := tuition_success_case examplePricing (some "2024_2025")
      (some "ШИНЖЛЭХ УХААНЫ СУРГУУЛЬ") (some 10) (some 5) true 1000 2000 rfl rfl rfl
    rw [h]
    norm_num

/-- C7 (confirmed): once the total is computed, a persistence failure only
prepends the inline failure note; the breakdown message with the computed
total is still emitted, and the turn's other output equals the successful
run's. -/
theorem tuition_persist_best_effort (pricing : PricingTable)
    (group faculty : Option String) (genCr majCr : Option ℚ) (genRate majRate : ℚ)
    (hg : optStrTruthy group = true) (hf : optStrTruthy faculty = true)
    (hr : usableRates pricing (group.getD "") (faculty.getD "") = some (genRate, majRate)) :
    action_calculate_tuition pricing group faculty genCr majCr false =
      TuitionMsg.dbSaveFailed ::
        action_calculate_tuition pricing group faculty genCr majCr true ∧
    TuitionMsg.breakdown (group.getD "") (faculty.getD "") (genCr.getD 0) genRate
        (majCr.getD 0) majRate ((genCr.getD 0) * genRate + (majCr.getD 0) * majRate) ∈
      action_calculate_tuition pricing group faculty genCr majCr false := by
  have hF := tuition_success_case pricing group faculty genCr majCr false genRate majRate hg hf hr
  have hT := tuition_success_case pricing group faculty genCr majCr true genRate majRate hg hf hr
  rw [hF, hT]
  exact ⟨rfl, by simp⟩

/-- C7 (witness): the concrete worked example with the persistence step
failing: the failure note is prepended and the breakdown is still
emitted. -/
theorem tuition_persist_best_effort_witness :
    action_calculate_tuition examplePricing (some "2024_2025")
        (some "ШИНЖЛЭХ УХААНЫ СУРГУУЛЬ") (some 10) (some 5) false =
      TuitionMsg.dbSaveFailed ::
        action_calculate_tuition examplePricing (some "2024_2025")
          (some "ШИНЖЛЭХ УХААНЫ СУРГУУЛЬ") (some 10) (some 5) true ∧
    TuitionMsg.breakdown "2024_2025" "ШИНЖЛЭХ УХААНЫ СУРГУУЛЬ" 10 1000 5 2000
        (10 * 1000 + 5 * 2000) ∈
      action_calculate_tuition examplePricing (some "2024_2025")
        (some "ШИНЖЛЭХ УХААНЫ СУРГУУЛЬ") (some 10) (some 5) false :=
  tuition_persist_best_effort examplePricing (some "2024_2025")
    (some "ШИНЖЛЭХ УХААНЫ СУРГУУЛЬ") (some 10) (some 5) 1000 2000 rfl rfl rfl

/-- C8 (confirmed): in every session state reachable through the form's
validation steps, every accumulated course entry has credit strictly
greater than 0 and score in 0–100; the score validator, the only appender,
preserves this. -/
theorem gpa_courses_wellformed (st : GpaState) (h : GpaReachable st)
    (e : CourseEntry) (he : e ∈ st.courses) :
    0 < e.credit ∧ 0 ≤ e.score ∧ e.score ≤ 100 :=
  (gpaReachable_inv h).2 e he

/-- C8 (witness): the session reached by validating a count of 1, a credit
of 3 and a score of 95 holds the entry (3,95), which is well-formed. -/
theorem gpa_courses_wellformed_witness :
    0 < (⟨3, 95⟩ : CourseEntry).credit ∧ 0 ≤ (⟨3, 95⟩ : CourseEntry).score ∧
      (⟨3, 95⟩ : CourseEntry).score ≤ 100 := by
  have h1 : GpaStep resetSlots ⟨some 1, 1, none, none, []⟩ :=
    GpaStep.setCount resetSlots (some 1) 1
      (by norm_num [validate_number_of_courses, truncQ])
  have h2 : GpaStep ⟨some 1, 1, none, none, []⟩ ⟨some 1, 1, some 3, none, []⟩ :=
    GpaStep.setCredit _ (some 3) 3 (by norm_num [validate_current_credit])
  have h3 : GpaStep ⟨some 1, 1, some 3, none, []⟩
      ⟨some 1, 1, some 3, some 95, [⟨3, 95⟩]⟩ :=
    GpaStep.scoreFinish _ (some 95) 3 [⟨3, 95⟩] 95 rfl
      (by norm_num [validate_current_score])
  have hreach : GpaReachable ⟨some 1, 1, some 3, some 95, [⟨3, 95⟩]⟩ :=
    Relation.ReflTransGen.tail (Relation.ReflTransGen.tail
      (Relation.ReflTransGen.tail Relation.ReflTransGen.refl h1) h2) h3
  exact gpa_courses_wellformed _ hreach ⟨3, 95⟩ (List.mem_singleton.mpr rfl)

end Actions
